import Mathlib

/-!
Verification of the ARC_study core against its natural-language specification.

The development shallowly embeds the relevant parts of the repository:
the Action algebra over grid objects (arc/actions.py), the pairwise
comparison functions (arc/comparisons.py), the decomposition search engine
(arc/board.py) and the template tree lookup (arc/template.py).

The Object primitive (arc/object.py) is not part of the provided sources;
the pieces of its contract that the embedded code needs (anchor, grid,
color ranking, generator codes, props, flatten) are modelled from the
specification, and each such definition is marked in its doc comment.
-/

/-- A materialized 2D grid of color values, row-major, as produced by the
Object contract of the spec (section 3). -/
def Grid : Type := List (List Nat)

instance : DecidableEq Grid := by
  unfold Grid
  infer_instance

/-- Number of columns of a grid, read from its first row. -/
def gridCols (g : Grid) : Nat :=
  match g with
  | [] => 0
  | row :: _ => row.length

/-- Transpose of a rectangular grid: entry (i, j) of the result is entry
(j, i) of the input. -/
def gridTranspose (g : Grid) : Grid :=
  (List.range (gridCols g)).map (fun j => g.filterMap (fun row => row[j]?))

/-- Embedding of numpy rot90: one counter-clockwise quarter turn.
Entry (i, j) of the result is entry (j, cols - 1 - i) of the input. -/
def rot90 (g : Grid) : Grid :=
  (gridTranspose g).reverse

/-- Iterated quarter turns, as the loop in Actions.Rotate.act. -/
def rotN (g : Grid) : Nat → Grid
  | 0 => g
  | n + 1 => rotN (rot90 g) n

/-- Embedding of numpy flip along axis 0: reverse the order of the rows. -/
def vflipGrid (g : Grid) : Grid :=
  g.reverse

/-- Embedding of numpy flip along axis 1: reverse each row. -/
def hflipGrid (g : Grid) : Grid :=
  g.map List.reverse

/-- Constants.NULL_COLOR from arc/definitions.py. -/
def NULL_COLOR : Nat := 10

/-- Constants.N_COLORS from arc/definitions.py. -/
def N_COLORS : Nat := 12

/-- Constants.MAX_DIST from arc/definitions.py. -/
def MAX_DIST : Nat := 10000

/-- Modelled from the spec: the Object primitive of arc/object.py is not in
the provided sources.  Per spec section 3 an Object exposes an anchor
(row, col, color) and a materialized grid, and two Objects are equal iff
their materialized grids and anchors match, which is the derived structural
equality here. -/
structure Object where
  row : Int
  col : Int
  color : Nat
  grid : Grid
deriving DecidableEq

/-- Modelled from the spec: Object.from_grid builds an Object from a
materialized grid and an anchor. -/
def Object.from_grid (g : Grid) (anchor : Int × Int × Nat) : Object :=
  ⟨anchor.1, anchor.2.1, anchor.2.2, g⟩

/-- An Object built from a grid with the default zero anchor. -/
def Object.ofGrid (g : Grid) : Object :=
  Object.from_grid g (0, 0, 0)

/-- The anchor location of an Object, as Object.loc. -/
def Object.loc (o : Object) : Int × Int :=
  (o.row, o.col)

/-- Modelled from the spec: Object.size, the number of points (non-null
cells) of the materialized grid. -/
def Object.size (o : Object) : Nat :=
  (o.grid.flatten.filter (fun c => c ≠ NULL_COLOR)).length

/-- Modelled from the spec: Object.c_rank, the ranking of colors present in
the Object together with their cell counts.  Only the underlying multiset
of (color, count) pairs is consumed by the embedded code, so a canonical
color-ordered listing is used. -/
def Object.c_rank (o : Object) : List (Nat × Nat) :=
  (List.range N_COLORS).filterMap (fun c =>
    if c = NULL_COLOR then none
    else
      let n := o.grid.flatten.count c
      if n = 0 then none else some (c, n))

/-- The set of colors present on an Object, as set(item[0] for item in
c_rank) in arc/comparisons.py.  The set is represented canonically as the
strictly increasing list of distinct colors present, so list equality
coincides with Python set equality. -/
def Object.colorSet (o : Object) : List Nat :=
  o.c_rank.map Prod.fst

/-- Embedding of Actions.Zero.act: copy the object with the anchor row and
column set to zero, keeping its color. -/
def Actions.Zero.act (o : Object) : Object :=
  { o with row := 0, col := 0 }

/-- Embedding of Actions.Rotate.act: rotate the grid num quarter turns
counter-clockwise and rebuild the Object from it, preserving the anchor. -/
def Actions.Rotate.act (o : Object) (num : Nat) : Object :=
  Object.from_grid (rotN o.grid num) (o.row, o.col, o.color)

/-- Embedding of Actions.VFlip.act: flip the grid along axis 0. -/
def Actions.VFlip.act (o : Object) : Object :=
  Object.from_grid (vflipGrid o.grid) (o.row, o.col, o.color)

/-- Embedding of Actions.HFlip.act: flip the grid along axis 1. -/
def Actions.HFlip.act (o : Object) : Object :=
  Object.from_grid (hflipGrid o.grid) (o.row, o.col, o.color)

/-- Embedding of Actions.Orthogonal.act: an optional reflection (1 =
vertical flip, 2 = horizontal flip) followed by a positive number of
quarter-turn rotations. -/
def Actions.Orthogonal.act (o : Object) (reflection : Nat) (rotation : Nat) : Object :=
  let result := o
  let result :=
    if reflection = 1 then Actions.VFlip.act result
    else if reflection = 2 then Actions.HFlip.act result
    else result
  if rotation > 0 then Actions.Rotate.act result rotation else result

/-- The inner rotation loop of Actions.Orthogonal.inv: compare a reflected
candidate against the target directly and after 1 to 3 quarter turns, in
that order, returning the matching argument pair. -/
def orthoTry (candidate target : Object) (oarg : Nat) : Option (List Nat) :=
  if candidate = target then some [oarg, 0]
  else if Actions.Rotate.act candidate 1 = target then some [oarg, 1]
  else if Actions.Rotate.act candidate 2 = target then some [oarg, 2]
  else if Actions.Rotate.act candidate 3 = target then some [oarg, 3]
  else none

/-- Embedding of Actions.Orthogonal.inv: reject size-1 targets, size or
color-rank mismatches; zero both objects; try identity, vertical flip and
horizontal flip, each followed by 0 to 3 quarter turns, in the fixed source
order, returning the first matching argument tuple. -/
def Actions.Orthogonal.inv (left right : Object) : List Nat :=
  if right.size = 1 ∨ left.size ≠ right.size ∨ left.c_rank ≠ right.c_rank then []
  else
    let l := Actions.Zero.act left
    let r := Actions.Zero.act right
    if l = r then []
    else
      match orthoTry l r 0 with
      | some a => a
      | none =>
        match orthoTry (Actions.VFlip.act l) r 1 with
        | some a => a
        | none =>
          match orthoTry (Actions.HFlip.act l) r 2 with
          | some a => a
          | none => []

/-- Application of Actions.Orthogonal.act to a returned argument tuple: an
empty tuple means the default arguments (0, 0). -/
def applyOrtho (o : Object) (args : List Nat) : Object :=
  match args with
  | [a, b] => Actions.Orthogonal.act o a b
  | _ => Actions.Orthogonal.act o 0 0

/-- The 3x3 grid of the scenario in the spec (section 8). -/
def gridA : Grid :=
  [[1, 2, 3], [4, 5, 6], [7, 8, 9]]

/-- The base Object of the 3x3 scenario. -/
def objA : Object := Object.ofGrid gridA

/-- Embedding of Actions.Paint.act: painting with the NULL_COLOR sentinel
returns a plain copy, otherwise the anchor color is replaced. -/
def Actions.Paint.act (o : Object) (color : Nat) : Object :=
  if color = NULL_COLOR then o else { o with color := color }

/-- Embedding of get_color_diff from arc/comparisons.py: when the color
sets differ and both sides are monochrome, distance 2 and a Paint
transform carrying the single color of the left object; when they differ
otherwise, MAX_DIST. -/
def get_color_diff (left right : Object) : Nat × List (String × Int) :=
  if left.colorSet ≠ right.colorSet then
    if left.colorSet.length = 1 ∧ right.colorSet.length = 1 then
      (2, [("c", ((left.colorSet.headD 0 : Nat) : Int))])
    else (MAX_DIST, [])
  else (0, [])

/-- Embedding of get_translation from arc/comparisons.py: matching
locations cost nothing; a left anchor at the origin proposes Zero; a row
difference with the left row at zero proposes Justify on axis 0, otherwise
a raw row offset under key "w"; with equal rows, a column difference with
the left column at zero proposes Justify on axis 1, otherwise a raw column
offset under key "s". -/
def get_translation (left right : Object) : Nat × List (String × Int) :=
  if left.row = right.row ∧ left.col = right.col then (0, [])
  else if left.row = 0 ∧ left.col = 0 then (1, [("z", 0)])
  else if right.row ≠ left.row then
    if left.row = 0 then (1, [("j", 0)]) else (2, [("w", left.row - right.row)])
  else if right.col ≠ left.col then
    if left.col = 0 then (1, [("j", 1)]) else (2, [("s", left.col - right.col)])
  else (0, [])

/-- Modelled from the spec: the generator facet of the Object primitive of
arc/object.py, which is not in the provided sources.  Per spec sections 3
and 4.1 an Object has an anchor, a base cell (the grid composed from its
children) and optionally a tiling generator whose codes V and H hold
repeat counts; Actions.Scale.inv in arc/actions.py reads the cell extent
as shape // (codes + 1), so the materialized shape is the cell shape
multiplied by the repeat counts plus one. -/
structure GenObject where
  row : Int
  col : Int
  color : Nat
  cellH : Nat
  cellW : Nat
  gen : Option (Nat × Nat)
deriving DecidableEq

/-- Modelled from the spec: the materialized shape of a generator Object —
the base cell shape, scaled by the generator repeat counts plus one when a
tiling generator is present. -/
def GenObject.shape (o : GenObject) : Nat × Nat :=
  match o.gen with
  | none => (o.cellH, o.cellW)
  | some (v, h) => (o.cellH * (v + 1), o.cellW * (h + 1))

/-- Embedding of Actions.Scale.act: store value - 1 into the generator
codes V and H for each positive argument.  Per the spec (section 4.1,
scaling is generator-parameter mutation, only meaningful on Objects that
already carry a tiling generator) and the repository test suite
(test_deformations), an Object without a tiling generator is returned
unchanged. -/
def Actions.Scale.act (o : GenObject) (vertical horizontal : Nat) : GenObject :=
  match o.gen with
  | none => o
  | some (v, h) =>
    { o with gen := some ((if vertical > 0 then vertical - 1 else v),
                          (if horizontal > 0 then horizontal - 1 else h)) }

/-- Embedding of Actions.Resize.act: for each axis on which the primary
shape differs from the secondary shape, scale that axis to the secondary
extent. -/
def Actions.Resize.act (o secondary : GenObject) : GenObject :=
  let result := o
  let result :=
    if o.shape.1 ≠ secondary.shape.1 then Actions.Scale.act result secondary.shape.1 0
    else result
  if o.shape.2 ≠ secondary.shape.2 then Actions.Scale.act result 0 secondary.shape.2
  else result

/-- Embedding of the StructureDef tree of arc/template.py: a node holds a
mapping of property names to values and an ordered list of children.  The
property payload is an association list, which suffices for the tree-path
lookup claims. -/
inductive StructureDef where
  | node (props : List (String × Int)) (children : List StructureDef)

/-- The property payload of a StructureDef node. -/
def StructureDef.propsOf : StructureDef → List (String × Int)
  | .node p _ => p

/-- The child list of a StructureDef node. -/
def StructureDef.childList : StructureDef → List StructureDef
  | .node _ cs => cs

/-- Embedding of Template.get_base from arc/template.py: walk the path of
child indices; an out-of-range index only logs a warning and leaves the
current node in place, the loop continuing with the remaining indices. -/
def Template.get_base : List Nat → StructureDef → StructureDef
  | [], sd => sd
  | idx :: rest, sd =>
    match sd.childList[idx]? with
    | some child => Template.get_base rest child
    | none => Template.get_base rest sd

/-- The tree-path lookup as the claim describes it: stop at the first
out-of-range child index and return the last node successfully reached
along the path. -/
def getBaseClaimed : List Nat → StructureDef → StructureDef
  | [], sd => sd
  | idx :: rest, sd =>
    match sd.childList[idx]? with
    | some child => getBaseClaimed rest child
    | none => sd

/-- Modelled from the spec: the facet of the Object contract that the
Board engine consumes — the scalar cost measure props and the flatten
operation (recursive minimal materialization).  The carrier stays abstract
because arc/object.py is not in the provided sources. -/
structure BoardOps (O : Type) where
  props : O → Nat
  flatten : O → O

/-- The decomposition state of a Board: the incumbent representation, the
FIFO processing queue and the bank of terminal candidates. -/
structure BoardState (O : Type) where
  rep : O
  proc_q : List O
  bank : List O

/-- One comparison of the scan in Board.select_representation: replace the
accumulated (representation, best props) pair whenever the candidate props
is strictly below the best seen so far, flattening the chosen candidate. -/
def selectStep {O : Type} (ops : BoardOps O) (acc : O × Nat) (obj : O) : O × Nat :=
  if ops.props obj < acc.2 then (ops.flatten obj, ops.props obj) else acc

/-- Embedding of Board.select_representation: scan bank then proc_q,
starting from the current representation and its props. -/
def select_representation {O : Type} (ops : BoardOps O) (s : BoardState O) : BoardState O :=
  { s with rep := ((s.bank ++ s.proc_q).foldl (selectStep ops) (s.rep, ops.props s.rep)).1 }

/-- Embedding of Board.batch_decomposition: while the queue is nonempty
and fewer than batch items were handled, pop the front object, run the
decomposition on it (decomp stands for Board._decomposition, whose Process
plugins are black boxes per the spec), bank the flattened object when no
candidates come back, extend the queue with the candidates, and re-run
select_representation. -/
def batch_decomposition {O : Type} (ops : BoardOps O) (decomp : O → List O) :
    Nat → BoardState O → BoardState O
  | 0, s => s
  | batch + 1, s =>
    match s.proc_q with
    | [] => s
    | obj :: rest =>
      let newObjs := decomp obj
      let bank1 := if newObjs.isEmpty then s.bank ++ [ops.flatten obj] else s.bank
      batch_decomposition ops decomp batch
        (select_representation ops { rep := s.rep, proc_q := rest ++ newObjs, bank := bank1 })

/-- Embedding of the round loop of Board.decompose: up to maxIter rounds
of batch decomposition, breaking early once the queue is empty. -/
def decomposeLoop {O : Type} (ops : BoardOps O) (decomp : O → List O) (batch : Nat) :
    Nat → BoardState O → BoardState O
  | 0, s => s
  | n + 1, s =>
    let s1 := batch_decomposition ops decomp batch s
    if s1.proc_q.isEmpty then s1 else decomposeLoop ops decomp batch n s1

/-- Embedding of Board.decompose: the round loop followed by a final
select_representation. -/
def Board.decompose {O : Type} (ops : BoardOps O) (decomp : O → List O)
    (batch maxIter : Nat) (s : BoardState O) : BoardState O :=
  select_representation ops (decomposeLoop ops decomp batch maxIter s)

/-- The initial Board state: the root object is the representation and the
sole queue entry, with an empty bank. -/
def initBoard {O : Type} (root : O) : BoardState O :=
  ⟨root, [root], []⟩

/-- The per-item step of batch decomposition as the claim describes it:
pop the front of the FIFO queue; if decomposition yields no candidates the
object is terminal and its flattened form is appended to the bank,
otherwise all candidates are appended to the back of the queue; then the
incumbent is re-evaluated. -/
def stepItem {O : Type} (ops : BoardOps O) (decomp : O → List O) (s : BoardState O) :
    BoardState O :=
  match s.proc_q with
  | [] => s
  | obj :: rest =>
    let cands := decomp obj
    select_representation ops
      { rep := s.rep
        proc_q := rest ++ cands
        bank := if cands.isEmpty then s.bank ++ [ops.flatten obj] else s.bank }

/-- Modelled from the spec: ObjectDelta, the directed scored comparison
between two Objects.  Its internals live outside the provided sources, so
the distance computation is abstracted as a function d into the rationals
(distances are summed comparison outputs, thresholds are fractional). -/
structure ObjectDelta (O : Type) where
  left : O
  right : O
  dist : ℚ

/-- Construction of an ObjectDelta from a distance function. -/
def mkDelta {O : Type} (d : O → O → ℚ) (l r : O) : ObjectDelta O :=
  ⟨l, r, d l r⟩

/-- The body of the scan loop in find_closest: build the delta for the
next inventory entry and keep it only when its distance is strictly below
the current match. -/
def closerDelta {O : Type} (d : O → O → ℚ) (obj : O) (m : ObjectDelta O)
    (src : O) : ObjectDelta O :=
  let delta := mkDelta d obj src
  if delta.dist < m.dist then delta else m

/-- Embedding of find_closest from arc/board.py: an empty inventory gives
none; otherwise a linear scan keeps the strictly smaller delta, and a
given threshold discards a best match lying strictly above it. -/
def find_closest {O : Type} (d : O → O → ℚ) (obj : O) (inventory : List O)
    (threshold : Option ℚ) : Option (ObjectDelta O) :=
  match inventory with
  | [] => none
  | first :: rest =>
    let best := rest.foldl (closerDelta d obj) (mkDelta d obj first)
    match threshold with
    | some t => if best.dist > t then none else some best
    | none => some best

/-- A concrete distance function for witnesses. -/
def dW : Nat → Nat → ℚ :=
  fun a b => (Nat.dist a b : ℚ)

/-- Concrete Board operations over Nat for witnesses. -/
def opsW : BoardOps Nat :=
  ⟨id, id⟩

/-- A concrete decomposition function for witnesses. -/
def decompW : Nat → List Nat :=
  fun n => if n = 0 then [] else [n - 1]

/-- C1: for the 3x3 grid [[1,2,3],[4,5,6],[7,8,9]] made into an Object,
each of the 7 non-identity orthogonal transforms (rotations by 90, 180 and
270 degrees, the two axis flips, and the two diagonal-equivalent composite
flips of the quarter turn) is reproduced exactly by
Orthogonal.act applied to the arguments returned by Orthogonal.inv. -/
theorem claim1_orthogonal_roundtrip :
    applyOrtho objA (Actions.Orthogonal.inv objA (Object.ofGrid (rot90 gridA)))
        = Object.ofGrid (rot90 gridA) ∧
    applyOrtho objA (Actions.Orthogonal.inv objA (Object.ofGrid (rotN gridA 2)))
        = Object.ofGrid (rotN gridA 2) ∧
    applyOrtho objA (Actions.Orthogonal.inv objA (Object.ofGrid (rotN gridA 3)))
        = Object.ofGrid (rotN gridA 3) ∧
    applyOrtho objA (Actions.Orthogonal.inv objA (Object.ofGrid (vflipGrid gridA)))
        = Object.ofGrid (vflipGrid gridA) ∧
    applyOrtho objA (Actions.Orthogonal.inv objA (Object.ofGrid (hflipGrid gridA)))
        = Object.ofGrid (hflipGrid gridA) ∧
    applyOrtho objA (Actions.Orthogonal.inv objA (Object.ofGrid (vflipGrid (rot90 gridA))))
        = Object.ofGrid (vflipGrid (rot90 gridA)) ∧
    applyOrtho objA (Actions.Orthogonal.inv objA (Object.ofGrid (hflipGrid (rot90 gridA))))
        = Object.ofGrid (hflipGrid (rot90 gridA)) := by
  decide

/-- C9: painting any Object with the NULL_COLOR sentinel (10) returns an
unchanged copy, preserving location, color and grid. -/
theorem claim9_paint_null :
    NULL_COLOR = 10 ∧ ∀ o : Object, Actions.Paint.act o NULL_COLOR = o :=
  ⟨rfl, fun o => by simp [Actions.Paint.act]⟩

/-- C3 counterexample: for a monochrome left object of color 1 and a
monochrome right object of color 2, get_color_diff returns a transform
mapping "c" to the LEFT color 1, not to the right color 2 as the claim
states. -/
theorem claim3_counterexample :
    (Object.ofGrid [[1]]).colorSet = [1] ∧
    (Object.ofGrid [[2]]).colorSet = [2] ∧
    get_color_diff (Object.ofGrid [[1]]) (Object.ofGrid [[2]]) = (2, [("c", 1)]) ∧
    get_color_diff (Object.ofGrid [[1]]) (Object.ofGrid [[2]]) ≠ (2, [("c", 2)]) := by
  decide

/-- C3 amended: when both sides are monochrome with distinct colors,
get_color_diff charges 2 and proposes a "c" transform carrying the LEFT
color; when the color sets differ and either side is multi-color, it
returns MAX_DIST. -/
theorem claim3_amended (l r : Object) :
    (∀ a b : Nat, l.colorSet = [a] → r.colorSet = [b] → a ≠ b →
      get_color_diff l r = (2, [("c", (a : Int))])) ∧
    (l.colorSet ≠ r.colorSet → (1 < l.colorSet.length ∨ 1 < r.colorSet.length) →
      (get_color_diff l r).1 = MAX_DIST) := by
  constructor
  · intro a b hl hr hab
    unfold get_color_diff
    rw [hl, hr]
    rw [if_pos (by simpa using hab), if_pos (by simp)]
    simp
  · intro hne hcard
    unfold get_color_diff
    rw [if_pos hne, if_neg]
    rintro ⟨h1, h2⟩
    rcases hcard with h | h
    · omega
    · omega

/-- Witness for claim3_amended at concrete monochrome and multi-color
objects. -/
theorem claim3_witness :
    get_color_diff (Object.ofGrid [[3]]) (Object.ofGrid [[4]]) = (2, [("c", 3)]) ∧
    (get_color_diff (Object.ofGrid [[1, 2]]) (Object.ofGrid [[2]])).1 = MAX_DIST :=
  ⟨(claim3_amended _ _).1 3 4 (by decide) (by decide) (by decide),
   (claim3_amended _ _).2 (by decide) (by decide)⟩

/-- C4: get_translation contributes zero distance and no transform on
matching locations; charges 1 with a Zero transform when the left anchor
is the origin and locations differ; charges 1 with a Justify transform on
the appropriate axis when the move zeroes exactly one axis while the other
axis is untouched (and the left anchor is not the origin, where the Zero
case applies instead). -/
theorem claim4_translation (l r : Object) :
    (l.loc = r.loc → get_translation l r = (0, [])) ∧
    (l.loc = (0, 0) → l.loc ≠ r.loc → get_translation l r = (1, [("z", 0)])) ∧
    (l.row = 0 → l.col ≠ 0 → r.row ≠ l.row → r.col = l.col →
      get_translation l r = (1, [("j", 0)])) ∧
    (l.col = 0 → l.row ≠ 0 → r.col ≠ l.col → r.row = l.row →
      get_translation l r = (1, [("j", 1)])) := by
  refine ⟨?_, ?_, ?_, ?_⟩
  · intro h
    have h1 : l.row = r.row := congrArg Prod.fst h
    have h2 : l.col = r.col := congrArg Prod.snd h
    unfold get_translation
    rw [if_pos ⟨h1, h2⟩]
  · intro h hne
    have h1 : l.row = 0 := congrArg Prod.fst h
    have h2 : l.col = 0 := congrArg Prod.snd h
    unfold get_translation
    rw [if_neg, if_pos ⟨h1, h2⟩]
    intro hc
    exact hne (by rw [Object.loc, Object.loc, hc.1, hc.2])
  · intro h0 hc hr hcol
    unfold get_translation
    rw [if_neg (fun hb => hr (hb.1.symm)), if_neg (fun hb => hc hb.2),
      if_pos hr, if_pos h0]
  · intro h0 hr0 hcne hreq
    unfold get_translation
    rw [if_neg (fun hb => hcne (hb.2.symm)), if_neg (fun hb => hr0 hb.1),
      if_neg (fun hb => hb hreq), if_pos hcne, if_pos h0]

/-- Witness for claim4_translation, exercising each clause at a concrete
pair of anchors. -/
theorem claim4_witness :
    get_translation (Object.from_grid [[1]] (2, 3, 0)) (Object.from_grid [[1]] (2, 3, 0)) = (0, []) ∧
    get_translation (Object.from_grid [[1]] (0, 0, 0)) (Object.from_grid [[1]] (2, 3, 0)) = (1, [("z", 0)]) ∧
    get_translation (Object.from_grid [[1]] (0, 4, 0)) (Object.from_grid [[1]] (5, 4, 0)) = (1, [("j", 0)]) ∧
    get_translation (Object.from_grid [[1]] (4, 0, 0)) (Object.from_grid [[1]] (4, 6, 0)) = (1, [("j", 1)]) :=
  ⟨(claim4_translation _ _).1 (by decide),
   (claim4_translation _ _).2.1 (by decide) (by decide),
   (claim4_translation _ _).2.2.1 (by decide) (by decide) (by decide) (by decide),
   (claim4_translation _ _).2.2.2 (by decide) (by decide) (by decide) (by decide)⟩

/-- C10 counterexample: with the left anchor at (0, 5) and the right at
(3, 7), both axes differ and the left location is not the origin, yet
get_translation returns distance 1 with a Justify transform, not distance
2 with a "w" offset as the claim states. -/
theorem claim10_counterexample :
    (Object.from_grid [[1]] (0, 5, 0)).row ≠ (Object.from_grid [[1]] (3, 7, 0)).row ∧
    (Object.from_grid [[1]] (0, 5, 0)).col ≠ (Object.from_grid [[1]] (3, 7, 0)).col ∧
    (Object.from_grid [[1]] (0, 5, 0)).loc ≠ (0, 0) ∧
    get_translation (Object.from_grid [[1]] (0, 5, 0)) (Object.from_grid [[1]] (3, 7, 0)) = (1, [("j", 0)]) ∧
    get_translation (Object.from_grid [[1]] (0, 5, 0)) (Object.from_grid [[1]] (3, 7, 0)) ≠
      (2, [("w", (0 : Int) - 3)]) := by
  decide

/-- C10 amended: when both the row and column of the left location differ
from the right and the LEFT ROW IS NONZERO, get_translation returns
distance 2 and a transform containing only the key "w" mapped to
left.row - right.row; the column displacement is absent. -/
theorem claim10_amended (l r : Object) (h1 : l.row ≠ r.row) (_h2 : l.col ≠ r.col)
    (h3 : l.row ≠ 0) :
    get_translation l r = (2, [("w", l.row - r.row)]) := by
  unfold get_translation
  rw [if_neg (fun hb => h1 hb.1), if_neg (fun hb => h3 hb.1),
    if_pos (Ne.symm h1), if_neg h3]

/-- Witness for claim10_amended at concrete anchors (5, 5) and (3, 7). -/
theorem claim10_witness :
    get_translation (Object.from_grid [[1]] (5, 5, 0)) (Object.from_grid [[1]] (3, 7, 0)) =
      (2, [("w", 2)]) := by
  have h := claim10_amended (Object.from_grid [[1]] (5, 5, 0))
    (Object.from_grid [[1]] (3, 7, 0)) (by decide) (by decide) (by decide)
  simpa using h

/-- C5 counterexample: for a 1x1 Object without a tiling generator and a
2x2 secondary, Resize.act leaves the shape at (1, 1), not at the
secondary shape (2, 2), because scaling is generator-parameter mutation
and the primary carries no generator. -/
theorem claim5_counterexample :
    (Actions.Resize.act (⟨0, 0, 1, 1, 1, none⟩ : GenObject) (⟨0, 0, 1, 2, 2, none⟩ : GenObject)).shape
        = (1, 1) ∧
    (⟨0, 0, 1, 2, 2, none⟩ : GenObject).shape = (2, 2) ∧
    (Actions.Resize.act (⟨0, 0, 1, 1, 1, none⟩ : GenObject) (⟨0, 0, 1, 2, 2, none⟩ : GenObject)).shape
        ≠ (⟨0, 0, 1, 2, 2, none⟩ : GenObject).shape := by
  decide

/-- C5 amended: Resize.act(a, b) returns an object whose shape equals the
shape of b whenever a carries a tiling generator whose base cell is a
single cell and the shape of b is positive on both axes. -/
theorem claim5_amended (a b : GenObject) (v h : Nat) (hgen : a.gen = some (v, h))
    (hch : a.cellH = 1) (hcw : a.cellW = 1)
    (hb1 : 0 < b.shape.1) (hb2 : 0 < b.shape.2) :
    (Actions.Resize.act a b).shape = b.shape := by
  obtain ⟨ar, ac, acol, ach, acw, agen⟩ := a
  simp only at hgen hch hcw
  subst hgen hch hcw
  simp only [Actions.Resize.act, Actions.Scale.act, GenObject.shape] at *
  split_ifs <;> simp_all [Prod.ext_iff] <;> omega

/-- Witness for claim5_amended, mirroring the first case of test_resize in
the repository test suite. -/
theorem claim5_witness :
    (Actions.Resize.act (⟨0, 0, 0, 1, 1, some (5, 3)⟩ : GenObject)
        (⟨2, 1, 0, 1, 1, some (1, 1)⟩ : GenObject)).shape
      = (⟨2, 1, 0, 1, 1, some (1, 1)⟩ : GenObject).shape :=
  claim5_amended _ _ 5 3 rfl rfl rfl (by decide) (by decide)

/-- C8 counterexample: on a root with a single child and the path (3, 0),
the out-of-range index 3 is skipped and the traversal continues, so
Template.get_base returns the child, not the last node successfully
reached along the path (the root) as the claim states. -/
theorem claim8_counterexample :
    (Template.get_base [3, 0] (.node [] [.node [("color", 7)] []])).propsOf = [("color", 7)] ∧
    (getBaseClaimed [3, 0] (.node [] [.node [("color", 7)] []])).propsOf = [] ∧
    Template.get_base [3, 0] (.node [] [.node [("color", 7)] []]) ≠
      getBaseClaimed [3, 0] (.node [] [.node [("color", 7)] []]) := by
  refine ⟨rfl, rfl, fun heq => ?_⟩
  exact absurd (congrArg StructureDef.propsOf heq) (by decide)

/-- C8 amended: Template.get_base never raises; an in-range child index
descends into that child, while an out-of-range child index logs a warning
and is skipped, the traversal continuing with the remaining indices from
the current node. -/
theorem claim8_amended (p : List (String × Int)) (cs : List StructureDef)
    (idx : Nat) (rest : List Nat) :
    (∀ hlt : idx < cs.length,
      Template.get_base (idx :: rest) (.node p cs) = Template.get_base rest (cs.get ⟨idx, hlt⟩)) ∧
    (cs.length ≤ idx →
      Template.get_base (idx :: rest) (.node p cs) = Template.get_base rest (.node p cs)) := by
  constructor
  · intro hlt
    simp only [Template.get_base, StructureDef.childList]
    rw [List.getElem?_eq_getElem hlt]
    simp [List.get_eq_getElem]
  · intro hge
    simp only [Template.get_base, StructureDef.childList]
    rw [List.getElem?_eq_none hge]

/-- Witness for claim8_amended: an in-range index reaches the child, an
out-of-range index keeps the current node. -/
theorem claim8_witness :
    Template.get_base [0] (.node [] [.node [("color", 7)] []]) = .node [("color", 7)] [] ∧
    Template.get_base [5] (.node [] [.node [("color", 7)] []]) = .node [] [.node [("color", 7)] []] := by
  constructor
  · have hx := (claim8_amended [] [.node [("color", 7)] []] 0 []).1 (by decide)
    simpa [Template.get_base] using hx
  · have hx := (claim8_amended [] [.node [("color", 7)] []] 5 []).2 (by decide)
    simpa [Template.get_base] using hx

/-- The scan of select_representation never reports a representation whose
props exceed the best props bound it started from. -/
theorem selectFold_le {O : Type} (ops : BoardOps O)
    (hflat : ∀ o, ops.props (ops.flatten o) ≤ ops.props o) :
    ∀ (l : List O) (acc : O × Nat), ops.props acc.1 ≤ acc.2 →
      ops.props ((l.foldl (selectStep ops) acc).1) ≤ acc.2 := by
  intro l
  induction l with
  | nil => intro acc hacc; simpa using hacc
  | cons o t ih =>
    intro acc hacc
    simp only [List.foldl_cons, selectStep]
    by_cases hlt : ops.props o < acc.2
    · rw [if_pos hlt]
      exact le_trans (ih (ops.flatten o, ops.props o) (hflat o)) (le_of_lt hlt)
    · rw [if_neg hlt]
      exact ih acc hacc

/-- select_representation never increases the props of the incumbent. -/
theorem select_representation_le {O : Type} (ops : BoardOps O)
    (hflat : ∀ o, ops.props (ops.flatten o) ≤ ops.props o) (s : BoardState O) :
    ops.props (select_representation ops s).rep ≤ ops.props s.rep :=
  selectFold_le ops hflat (s.bank ++ s.proc_q) (s.rep, ops.props s.rep) le_rfl

/-- Each batch of decomposition leaves the incumbent props no larger. -/
theorem batch_decomposition_le {O : Type} (ops : BoardOps O) (decomp : O → List O)
    (hflat : ∀ o, ops.props (ops.flatten o) ≤ ops.props o) :
    ∀ (batch : Nat) (s : BoardState O),
      ops.props (batch_decomposition ops decomp batch s).rep ≤ ops.props s.rep := by
  intro batch
  induction batch with
  | zero => intro s; simp [batch_decomposition]
  | succ n ih =>
    intro s
    obtain ⟨rep, q, bank⟩ := s
    cases q with
    | nil => simp [batch_decomposition]
    | cons o rest =>
      simp only [batch_decomposition]
      refine le_trans (ih _) ?_
      exact select_representation_le ops hflat _

/-- The round loop of decompose leaves the incumbent props no larger. -/
theorem decomposeLoop_le {O : Type} (ops : BoardOps O) (decomp : O → List O)
    (batch : Nat) (hflat : ∀ o, ops.props (ops.flatten o) ≤ ops.props o) :
    ∀ (n : Nat) (s : BoardState O),
      ops.props (decomposeLoop ops decomp batch n s).rep ≤ ops.props s.rep := by
  intro n
  induction n with
  | zero => intro s; simp [decomposeLoop]
  | succ m ih =>
    intro s
    simp only [decomposeLoop]
    by_cases hq : (batch_decomposition ops decomp batch s).proc_q.isEmpty
    · rw [if_pos hq]
      exact batch_decomposition_le ops decomp hflat batch s
    · rw [if_neg hq]
      exact le_trans (ih _) (batch_decomposition_le ops decomp hflat batch s)

/-- C2: under the Object contract that flattening never increases props,
each round of batch_decomposition leaves rep.props no larger than before
the round, and a full Board.decompose starting from the initial state
reports a representation whose props are at most the props of the root
object. -/
theorem claim2_props_monotone {O : Type} (ops : BoardOps O) (decomp : O → List O)
    (hflat : ∀ o, ops.props (ops.flatten o) ≤ ops.props o) :
    (∀ (batch : Nat) (s : BoardState O),
      ops.props (batch_decomposition ops decomp batch s).rep ≤ ops.props s.rep) ∧
    (∀ (batch maxIter : Nat) (root : O),
      ops.props (Board.decompose ops decomp batch maxIter (initBoard root)).rep ≤
        ops.props root) := by
  refine ⟨batch_decomposition_le ops decomp hflat, ?_⟩
  intro batch maxIter root
  unfold Board.decompose
  refine le_trans (select_representation_le ops hflat _) ?_
  exact decomposeLoop_le ops decomp batch hflat maxIter (initBoard root)

/-- Witness for claim2_props_monotone over the identity Board operations
on Nat. -/
theorem claim2_witness :
    opsW.props (Board.decompose opsW decompW 10 10 (initBoard 5)).rep ≤ opsW.props 5 :=
  (claim2_props_monotone opsW decompW (fun _ => le_rfl)).2 10 10 5

/-- A step on an empty queue is the identity. -/
theorem stepItem_empty {O : Type} (ops : BoardOps O) (decomp : O → List O)
    (s : BoardState O) (h : s.proc_q = []) : stepItem ops decomp s = s := by
  obtain ⟨rep, q, bank⟩ := s
  cases h
  rfl

/-- C7: batch_decomposition(batch) equals batch applications of the
per-item step that pops the front of the FIFO queue, banks the flattened
object when decomposition yields no candidates, appends all candidates to
the back of the queue otherwise, and re-runs select_representation; once
the queue empties the remaining applications change nothing, so at most
batch objects are popped. -/
theorem claim7_batch_is_iterated_step {O : Type} (ops : BoardOps O) (decomp : O → List O) :
    ∀ (batch : Nat) (s : BoardState O),
      batch_decomposition ops decomp batch s = (stepItem ops decomp)^[batch] s := by
  intro batch
  induction batch with
  | zero => intro s; rfl
  | succ n ih =>
    intro s
    obtain ⟨rep, q, bank⟩ := s
    cases q with
    | nil =>
      rw [Function.iterate_fixed (stepItem_empty ops decomp _ rfl)]
      rfl
    | cons o rest =>
      rw [Function.iterate_succ_apply]
      simp only [batch_decomposition, stepItem]
      exact ih _

/-- The scan step keeps the incoming entry exactly when it is strictly
closer. -/
theorem closerDelta_lt {O : Type} (d : O → O → ℚ) (obj : O) (m : ObjectDelta O)
    (src : O) (h : d obj src < m.dist) : closerDelta d obj m src = mkDelta d obj src := by
  simp [closerDelta, mkDelta, h]

/-- The scan step keeps the current match on ties and worse entries. -/
theorem closerDelta_ge {O : Type} (d : O → O → ℚ) (obj : O) (m : ObjectDelta O)
    (src : O) (h : ¬ d obj src < m.dist) : closerDelta d obj m src = m := by
  simp [closerDelta, mkDelta, h]

/-- The linear scan of find_closest computes the delta of the first
inventory entry of minimal distance. -/
theorem findFold_spec {O : Type} (d : O → O → ℚ) (obj : O) :
    ∀ (l : List O) (c : O), ∃ best : O,
      l.foldl (closerDelta d obj) (mkDelta d obj c) = mkDelta d obj best ∧
      (c :: l).find? (fun s => decide (d obj s = d obj best)) = some best ∧
      ∀ s ∈ c :: l, d obj best ≤ d obj s := by
  intro l
  induction l with
  | nil =>
    intro c
    refine ⟨c, rfl, by simp [List.find?], ?_⟩
    intro s hs
    have : s = c := by simpa using hs
    subst this
    exact le_rfl
  | cons x t ih =>
    intro c
    simp only [List.foldl_cons]
    by_cases hlt : d obj x < d obj c
    · obtain ⟨best, hfold, hfind, hmin⟩ := ih x
      rw [closerDelta_lt d obj _ _ (by simpa [mkDelta] using hlt)]
      have hbx : d obj best ≤ d obj x := hmin x (List.mem_cons_self x t)
      have hcf : ¬ ((fun s => decide (d obj s = d obj best)) c = true) := by
        simp only [decide_eq_true_eq]
        intro he
        exact absurd hlt (not_lt.mpr (he ▸ hbx))
      have hskip : List.find? (fun s => decide (d obj s = d obj best)) (c :: x :: t) =
          List.find? (fun s => decide (d obj s = d obj best)) (x :: t) :=
        List.find?_cons_of_neg _ hcf
      refine ⟨best, hfold, hskip.trans hfind, ?_⟩
      intro s hs
      rcases List.mem_cons.mp hs with h1 | h2
      · subst h1
        exact le_trans hbx (le_of_lt hlt)
      · exact hmin s h2
    · obtain ⟨best, hfold, hfind, hmin⟩ := ih c
      rw [closerDelta_ge d obj _ _ (by simpa [mkDelta] using hlt)]
      have hbc : d obj best ≤ d obj c := hmin c (List.mem_cons_self c t)
      have hcx : d obj c ≤ d obj x := not_lt.mp hlt
      by_cases hceq : d obj c = d obj best
      · have hfc : (c :: t).find? (fun s => decide (d obj s = d obj best)) = some c :=
          List.find?_cons_of_pos _ (by simp [hceq])
        have hbestc : best = c := Option.some.inj (hfind.symm.trans hfc)
        refine ⟨best, hfold, ?_, ?_⟩
        · exact (List.find?_cons_of_pos _ (by simp [hceq])).trans (congrArg some hbestc.symm)
        · intro s hs
          rcases List.mem_cons.mp hs with h1 | h2
          · rw [h1, hbestc]
          · rcases List.mem_cons.mp h2 with h3 | h4
            · rw [h3]
              exact le_trans hbc hcx
            · exact hmin s (List.mem_cons_of_mem c h4)
      · have hcf : ¬ ((fun s => decide (d obj s = d obj best)) c = true) := by
          simp [hceq]
        have hstep : List.find? (fun s => decide (d obj s = d obj best)) (c :: t) =
            List.find? (fun s => decide (d obj s = d obj best)) t :=
          List.find?_cons_of_neg _ hcf
        have hfind1 : t.find? (fun s => decide (d obj s = d obj best)) = some best :=
          hstep.symm.trans hfind
        have hxf : ¬ ((fun s => decide (d obj s = d obj best)) x = true) := by
          simp only [decide_eq_true_eq]
          intro he
          exact hceq (le_antisymm (he ▸ hcx) hbc)
        have hskip1 : List.find? (fun s => decide (d obj s = d obj best)) (c :: x :: t) =
            List.find? (fun s => decide (d obj s = d obj best)) (x :: t) :=
          List.find?_cons_of_neg _ hcf
        have hskip2 : List.find? (fun s => decide (d obj s = d obj best)) (x :: t) =
            List.find? (fun s => decide (d obj s = d obj best)) t :=
          List.find?_cons_of_neg _ hxf
        refine ⟨best, hfold, hskip1.trans (hskip2.trans hfind1), ?_⟩
        intro s hs
        rcases List.mem_cons.mp hs with h1 | h2
        · subst h1
          exact hbc
        · rcases List.mem_cons.mp h2 with h3 | h4
          · subst h3
            exact le_trans hbc hcx
          · exact hmin s (List.mem_cons_of_mem c h4)

/-- C6: find_closest returns none on an empty inventory; on a nonempty
inventory the scan settles on the first candidate of minimal distance
(earlier candidates win ties), returning none when that minimal distance
exceeds the threshold and the corresponding ObjectDelta otherwise. -/
theorem claim6_find_closest {O : Type} (d : O → O → ℚ) (obj : O)
    (inventory : List O) (t : ℚ) :
    (inventory = [] → find_closest d obj inventory (some t) = none) ∧
    (inventory ≠ [] → ∃ best : O,
      (∀ s ∈ inventory, d obj best ≤ d obj s) ∧
      inventory.find? (fun s => decide (d obj s = d obj best)) = some best ∧
      (t < d obj best → find_closest d obj inventory (some t) = none) ∧
      (d obj best ≤ t → find_closest d obj inventory (some t) =
        some (mkDelta d obj best))) := by
  constructor
  · intro h
    subst h
    rfl
  · intro hne
    cases inventory with
    | nil => exact absurd rfl hne
    | cons first rest =>
      obtain ⟨best, hfold, hfind, hmin⟩ := findFold_spec d obj rest first
      refine ⟨best, hmin, hfind, ?_, ?_⟩
      · intro hgt
        simp only [find_closest]
        rw [hfold]
        rw [if_pos (by simpa [mkDelta] using hgt)]
      · intro hle
        simp only [find_closest]
        rw [hfold]
        rw [if_neg (by simpa [mkDelta] using not_lt.mpr hle)]

/-- Witness for claim6_find_closest on a concrete inventory with a tie:
the target 5 is at distance 1 from both occurrences of 4 and the first
one wins. -/
theorem claim6_witness :
    [1, 4, 4, 9] ≠ ([] : List Nat) ∧
    (∃ best : Nat,
      (∀ s ∈ [1, 4, 4, 9], dW 5 best ≤ dW 5 s) ∧
      List.find? (fun s => decide (dW 5 s = dW 5 best)) [1, 4, 4, 9] = some best ∧
      ((2 : ℚ) < dW 5 best → find_closest dW 5 [1, 4, 4, 9] (some 2) = none) ∧
      (dW 5 best ≤ (2 : ℚ) → find_closest dW 5 [1, 4, 4, 9] (some 2) =
        some (mkDelta dW 5 best))) :=
  ⟨by decide, (claim6_find_closest dW 5 [1, 4, 4, 9] 2).2 (by decide)⟩
